import Mathlib

/-!
Verification of the feed-checking / deduplication / scheduling core of the
HotOffThePRSS repository (src/scheduler.py and src/main_web.py).

The Python source is shallowly embedded: the persisted sent-article ledger
file is a `LedgerFile`, Python `set`s become `Finset String`, the persisted
yaml list stays a `List String`, and time is modelled as epoch seconds
(`Int`).  Every definition is translated from the source; definitions that
render a sentence of the specification (for refinement comparisons) say so
in their doc comment.
-/

namespace HotPRSS

/-- State of the persisted sent-articles ledger file (`sent_articles.yaml`,
scheduler.py:21).  `missing` is the `FileNotFoundError` case, `content l`
is a readable file whose yaml parses to the list `l` (an empty file parses
to `None`, which scheduler.py:59 coerces to `[]`, i.e. `content []`), and
`ioError` is any state in which touching the file during the
read-modify-write cycle raises (I/O error, corrupt yaml, lock failure). -/
inductive LedgerFile where
  | missing
  | content (ids : List String)
  | ioError
  deriving DecidableEq

/-- The list stored in a readable ledger file (`[]` otherwise). -/
def LedgerFile.storedIds : LedgerFile → List String
  | .content l => l
  | .missing => []
  | .ioError => []

theorem storedIds_content (l : List String) : (LedgerFile.content l).storedIds = l := rfl

theorem snd_storedIds_content (a : Finset String) (l : List String) :
    ((a, LedgerFile.content l) : Finset String × LedgerFile).2.storedIds = l := rfl

/-!
Python's `sorted` / `list.sort` is a stable sort, and a stable sort with
respect to a total preorder is extensionally unique, so we embed every
sort in the source as `List.insertionSort` (structurally recursive and
stable), with the comparison the source uses.
-/

/-- scheduler.py:46-93 `filter_and_update_sent_articles`.

* `content` branch (scheduler.py:54-80): read the yaml list, form the set
  difference `set(article_ids_to_check) - sent_articles_set`; if it is
  empty nothing is written; otherwise the union is sorted ascending and
  only the last 10,000 entries are kept (`sorted(...)[-10000:]`,
  scheduler.py:70) and written back.
* `missing` branch (scheduler.py:82-89, `FileNotFoundError`): the raw
  candidate list is sorted, truncated the same way and written; *all*
  candidates are returned as new.
* `ioError` branch (scheduler.py:90-91, `except Exception`): the function
  returns the initial value `new_article_ids = set()`.

Python's `xs[-10000:]` (the last 10,000 elements, or all of them when
fewer) is `List.drop (length - 10000)` with truncated `Nat` subtraction. -/
def filter_and_update_sent_articles (article_ids_to_check : List String)
    (file : LedgerFile) : Finset String × LedgerFile :=
  match file with
  | .content sent_articles_list =>
      let sent_articles_set : Finset String := sent_articles_list.toFinset
      let genuinely_new_ids : Finset String :=
        article_ids_to_check.toFinset \ sent_articles_set
      if genuinely_new_ids = ∅ then
        (∅, .content sent_articles_list)
      else
        let updated_sent_articles_set := sent_articles_set ∪ genuinely_new_ids
        let sortedAll := updated_sent_articles_set.sort (· ≤ ·)
        let updated_sent_articles_list := sortedAll.drop (sortedAll.length - 10000)
        (genuinely_new_ids, .content updated_sent_articles_list)
  | .missing =>
      let sortedAll := article_ids_to_check.insertionSort (· ≤ ·)
      let updated_sent_articles_list := sortedAll.drop (sortedAll.length - 10000)
      (article_ids_to_check.toFinset, .content updated_sent_articles_list)
  | .ioError => (∅, .ioError)

/-- Modelled from the spec's words (for the refinement comparison of claim
C1): "the persisted ledger equals the union of L and C truncated to the
10,000-entry size cap", where truncation under "the explicit ordering
convention (ascending sort of the identifier strings)" keeps the last
10,000 entries of the ascending sort. -/
def ledger_after_spec (L C : Finset String) : Finset String :=
  (((L ∪ C).sort (· ≤ ·)).drop (((L ∪ C).sort (· ≤ ·)).length - 10000)).toFinset

/-! ### Helper lemmas about the ledger operation -/

/-- Unfolding of the `content` branch of the ledger operation. -/
theorem filter_content_eq (C l : List String) :
    filter_and_update_sent_articles C (.content l) =
      if C.toFinset \ l.toFinset = ∅ then (∅, .content l)
      else
        (C.toFinset \ l.toFinset,
         .content (((l.toFinset ∪ (C.toFinset \ l.toFinset)).sort (· ≤ ·)).drop
           (((l.toFinset ∪ (C.toFinset \ l.toFinset)).sort (· ≤ ·)).length - 10000))) :=
  rfl

/-- Unfolding of the `missing` branch of the ledger operation. -/
theorem filter_missing_eq (C : List String) :
    filter_and_update_sent_articles C .missing =
      (C.toFinset,
       .content ((C.insertionSort (· ≤ ·)).drop ((C.insertionSort (· ≤ ·)).length - 10000))) :=
  rfl

/-- Unfolding of the `ioError` branch of the ledger operation. -/
theorem filter_ioError_eq (C : List String) :
    filter_and_update_sent_articles C .ioError = (∅, .ioError) :=
  rfl

/-- The new-id component on a readable file is exactly the set difference,
in both branches of the `if`. -/
theorem filter_content_fst (C l : List String) :
    (filter_and_update_sent_articles C (.content l)).1 = C.toFinset \ l.toFinset := by
  rw [filter_content_eq]
  by_cases h : C.toFinset \ l.toFinset = ∅
  · rw [if_pos h]; exact h.symm
  · rw [if_neg h]

/-- A list that is already sorted and duplicate-free is its own finset sort. -/
theorem sort_of_sorted_nodup (l : List String) (hs : l.Pairwise (· ≤ ·))
    (hn : l.Nodup) : l.toFinset.sort (· ≤ ·) = l :=
  List.eq_of_perm_of_sorted
    (List.perm_of_nodup_nodup_toFinset_eq (Finset.sort_nodup _ _) hn
      (Finset.sort_toFinset _ _))
    (Finset.sort_sorted _ _) hs

/-- `insertionSort` under `≤` agrees with the finset sort on a
duplicate-free list. -/
theorem insertionSort_eq_sort_toFinset (C : List String) (hC : C.Nodup) :
    C.insertionSort (· ≤ ·) = C.toFinset.sort (· ≤ ·) := by
  have hperm : List.Perm (C.insertionSort (· ≤ ·)) C := List.perm_insertionSort _ C
  have hnd : (C.insertionSort (· ≤ ·)).Nodup := hperm.nodup_iff.mpr hC
  have hsorted : (C.insertionSort (· ≤ ·)).Pairwise (· ≤ ·) :=
    List.sorted_insertionSort _ C
  have hfin : (C.insertionSort (· ≤ ·)).toFinset = C.toFinset :=
    List.toFinset_eq_of_perm _ _ hperm
  exact (sort_of_sorted_nodup _ hsorted hnd).symm.trans (by rw [hfin])

/-- When the merged set stays within the cap, the stored list after an
update on a readable file holds exactly the union. -/
theorem filter_content_storedIds_of_cap (C l : List String)
    (hcap : (l.toFinset ∪ C.toFinset).card ≤ 10000) :
    ((filter_and_update_sent_articles C (.content l)).2).storedIds.toFinset
      = l.toFinset ∪ C.toFinset := by
  rw [filter_content_eq]
  by_cases h : C.toFinset \ l.toFinset = ∅
  · rw [if_pos h]
    have hsub : C.toFinset ⊆ l.toFinset := by
      intro x hx
      by_contra hxl
      have hmem : x ∈ C.toFinset \ l.toFinset := Finset.mem_sdiff.mpr ⟨hx, hxl⟩
      rw [h] at hmem
      exact absurd hmem (Finset.not_mem_empty x)
    rw [snd_storedIds_content, Finset.union_eq_left.mpr hsub]
  · rw [if_neg h]
    have hunion : l.toFinset ∪ (C.toFinset \ l.toFinset) = l.toFinset ∪ C.toFinset :=
      Finset.union_sdiff_self_eq_union
    have hle : ((l.toFinset ∪ (C.toFinset \ l.toFinset)).sort (· ≤ ·)).length ≤ 10000 := by
      rw [Finset.length_sort, hunion]; exact hcap
    rw [snd_storedIds_content, Nat.sub_eq_zero_of_le hle, List.drop_zero,
      Finset.sort_toFinset, hunion]

/-! ### A concrete family of identifiers large enough to overflow the cap

`aStr k` is the string of `k` copies of `'a'`; these are strictly
increasing in the lexicographic string order, which lets us build an
explicit sorted, duplicate-free list of 10,001 identifiers. -/

def aStr (k : Nat) : String := String.mk (List.replicate k 'a')

theorem aStr_lt {m n : Nat} (h : m < n) : aStr m < aStr n := by
  rw [String.lt_iff_toList_lt]
  show List.Lex (· < ·) (List.replicate m 'a') (List.replicate n 'a')
  induction m generalizing n with
  | zero =>
    obtain ⟨k, rfl⟩ : ∃ k, n = k + 1 := ⟨n - 1, by omega⟩
    rw [List.replicate_succ]
    exact List.Lex.nil
  | succ m ih =>
    obtain ⟨k, rfl⟩ : ∃ k, n = k + 1 := ⟨n - 1, by omega⟩
    rw [List.replicate_succ, List.replicate_succ]
    exact List.Lex.cons (ih (by omega))

theorem aStr_le {m n : Nat} (h : m ≤ n) : aStr m ≤ aStr n := by
  rcases Nat.lt_or_ge m n with h' | h'
  · exact le_of_lt (aStr_lt h')
  · have : m = n := le_antisymm h h'
    exact this ▸ le_refl _

/-- The tail of the oversized identifier list: `aStr 2, …, aStr 10001`. -/
def restIds : List String := (List.range 10000).map (fun n => aStr (n + 2))

/-- 10,001 distinct identifiers in ascending order: `aStr 1, …, aStr 10001`. -/
def bigIds : List String := aStr 1 :: restIds

theorem bigIds_pairwise_lt : bigIds.Pairwise (· < ·) := by
  refine List.Pairwise.cons ?_ ?_
  · intro y hy
    simp only [restIds, List.mem_map, List.mem_range] at hy
    obtain ⟨n, _, rfl⟩ := hy
    exact aStr_lt (by omega)
  · exact (List.pairwise_lt_range 10000).map _ (fun a b hab => aStr_lt (by omega))

theorem bigIds_sorted : bigIds.Pairwise (· ≤ ·) :=
  bigIds_pairwise_lt.imp le_of_lt

theorem bigIds_nodup : bigIds.Nodup :=
  bigIds_pairwise_lt.imp ne_of_lt

theorem bigIds_length : bigIds.length = 10001 := by
  simp [bigIds, restIds]

theorem aStr_one_mem_bigIds : aStr 1 ∈ bigIds := List.mem_cons_self _ _

theorem aStr_one_not_mem_restIds : aStr 1 ∉ restIds :=
  (List.nodup_cons.mp bigIds_nodup).1

theorem bigIds_card : bigIds.toFinset.card = 10001 := by
  rw [List.toFinset_card_of_nodup bigIds_nodup, bigIds_length]

/-- Sorting the finset of `bigIds` gives back `bigIds` itself. -/
theorem bigIds_sort : bigIds.toFinset.sort (· ≤ ·) = bigIds :=
  sort_of_sorted_nodup _ bigIds_sorted bigIds_nodup

/-- The spec-side truncated union never exceeds the cap. -/
theorem ledger_after_spec_card_le (L C : Finset String) :
    (ledger_after_spec L C).card ≤ 10000 := by
  unfold ledger_after_spec
  have h1 := List.toFinset_card_le
    (l := ((L ∪ C).sort (· ≤ ·)).drop (((L ∪ C).sort (· ≤ ·)).length - 10000))
  have h2 : (((L ∪ C).sort (· ≤ ·)).drop (((L ∪ C).sort (· ≤ ·)).length - 10000)).length
      = ((L ∪ C).sort (· ≤ ·)).length - (((L ∪ C).sort (· ≤ ·)).length - 10000) :=
    List.length_drop _ _
  omega

/-- When the union is within the cap, the spec-side truncation is the union. -/
theorem ledger_after_spec_of_cap (L C : Finset String) (h : (L ∪ C).card ≤ 10000) :
    ledger_after_spec L C = L ∪ C := by
  unfold ledger_after_spec
  have hle : ((L ∪ C).sort (· ≤ ·)).length ≤ 10000 := by
    rw [Finset.length_sort]; exact h
  rw [Nat.sub_eq_zero_of_le hle, List.drop_zero, Finset.sort_toFinset]

theorem filter_content_pos_eq (C l : List String) (h : C.toFinset \ l.toFinset = ∅) :
    filter_and_update_sent_articles C (.content l) = (∅, .content l) := by
  rw [filter_content_eq, if_pos h]

theorem filter_content_neg_eq (C l : List String) (h : ¬ C.toFinset \ l.toFinset = ∅) :
    filter_and_update_sent_articles C (.content l)
      = (C.toFinset \ l.toFinset,
         .content (((l.toFinset ∪ (C.toFinset \ l.toFinset)).sort (· ≤ ·)).drop
           (((l.toFinset ∪ (C.toFinset \ l.toFinset)).sort (· ≤ ·)).length - 10000))) := by
  rw [filter_content_eq, if_neg h]

/-- On a readable prior ledger within the cap, the stored result refines the
spec's "union truncated to the cap". -/
theorem filter_content_matches_spec (C l : List String)
    (hcap : l.toFinset.card ≤ 10000) :
    ((filter_and_update_sent_articles C (.content l)).2).storedIds.toFinset
      = ledger_after_spec l.toFinset C.toFinset := by
  by_cases h : C.toFinset \ l.toFinset = ∅
  · have hsub : C.toFinset ⊆ l.toFinset := by
      intro x hx
      by_contra hxl
      have hmem : x ∈ C.toFinset \ l.toFinset := Finset.mem_sdiff.mpr ⟨hx, hxl⟩
      rw [h] at hmem
      exact absurd hmem (Finset.not_mem_empty x)
    have hu : l.toFinset ∪ C.toFinset = l.toFinset := Finset.union_eq_left.mpr hsub
    rw [filter_content_pos_eq C l h, snd_storedIds_content,
      ledger_after_spec_of_cap _ _ (by rw [hu]; exact hcap), hu]
  · rw [filter_content_neg_eq C l h, snd_storedIds_content]
    unfold ledger_after_spec
    rw [Finset.union_sdiff_self_eq_union]

/-- On a missing ledger file, the stored result refines the spec's
truncated union with an empty prior ledger (candidates without duplicates,
as the contract's `set of string` requires). -/
theorem filter_missing_matches_spec (C : List String) (hC : C.Nodup) :
    ((filter_and_update_sent_articles C .missing).2).storedIds.toFinset
      = ledger_after_spec ∅ C.toFinset := by
  rw [filter_missing_eq, snd_storedIds_content]
  unfold ledger_after_spec
  rw [Finset.empty_union, ← insertionSort_eq_sort_toFinset C hC]

/-- C1 (corrected): for a duplicate-free candidate set `C` and a readable
prior ledger `l` holding at most 10,000 distinct identifiers (the invariant
the operation itself maintains), `CheckAndRecord` returns exactly `C`
minus the ledger, and afterwards the stored ledger is the union truncated
to the 10,000-entry cap; on a missing file every candidate is returned as
new and the stored ledger is the truncated candidate set; on an empty
ledger every candidate is returned as new. -/
theorem c1_checkAndRecord_amended (C l : List String) (hC : C.Nodup)
    (hcap : l.toFinset.card ≤ 10000) :
    (filter_and_update_sent_articles C (.content l)).1 = C.toFinset \ l.toFinset ∧
    ((filter_and_update_sent_articles C (.content l)).2).storedIds.toFinset
      = ledger_after_spec l.toFinset C.toFinset ∧
    (filter_and_update_sent_articles C .missing).1 = C.toFinset ∧
    ((filter_and_update_sent_articles C .missing).2).storedIds.toFinset
      = ledger_after_spec ∅ C.toFinset ∧
    (filter_and_update_sent_articles C (.content [])).1 = C.toFinset := by
  refine ⟨filter_content_fst C l, filter_content_matches_spec C l hcap,
    ?_, filter_missing_matches_spec C hC, ?_⟩
  · rw [filter_missing_eq]
  · rw [filter_content_fst, List.toFinset_nil, Finset.sdiff_empty]

/-- Witness for C1 at a concrete input: candidate `"b"` against ledger
`["a"]`. -/
theorem c1_checkAndRecord_witness :
    (filter_and_update_sent_articles ["b"] (.content ["a"])).1
        = (["b"] : List String).toFinset \ (["a"] : List String).toFinset ∧
    ((filter_and_update_sent_articles ["b"] (.content ["a"])).2).storedIds.toFinset
        = ledger_after_spec (["a"] : List String).toFinset (["b"] : List String).toFinset ∧
    (filter_and_update_sent_articles ["b"] .missing).1 = (["b"] : List String).toFinset ∧
    ((filter_and_update_sent_articles ["b"] .missing).2).storedIds.toFinset
        = ledger_after_spec ∅ (["b"] : List String).toFinset ∧
    (filter_and_update_sent_articles ["b"] (.content [])).1 = (["b"] : List String).toFinset :=
  c1_checkAndRecord_amended ["b"] ["a"] (by decide) (by decide)

/-- C1 fails as stated: with an (oversized) readable ledger of 10,001
distinct identifiers and a candidate already present, nothing is written,
so the persisted ledger is not the union truncated to the cap. -/
theorem c1_counterexample :
    ¬ ((filter_and_update_sent_articles [aStr 1] (.content bigIds)).2).storedIds.toFinset
        = ledger_after_spec bigIds.toFinset ([aStr 1] : List String).toFinset := by
  have hsub : ([aStr 1] : List String).toFinset \ bigIds.toFinset = ∅ := by
    rw [Finset.sdiff_eq_empty_iff_subset]
    intro x hx
    rw [List.toFinset_cons, List.toFinset_nil, Finset.mem_insert] at hx
    rcases hx with hx | hx
    · rw [hx]; exact List.mem_toFinset.mpr aStr_one_mem_bigIds
    · exact absurd hx (Finset.not_mem_empty x)
  rw [filter_content_pos_eq _ _ hsub, snd_storedIds_content]
  intro heq
  have h1 : bigIds.toFinset.card = 10001 := bigIds_card
  have h2 := ledger_after_spec_card_le bigIds.toFinset ([aStr 1] : List String).toFinset
  rw [← heq] at h2
  omega

/-! ### Two racing `CheckAndRecord` calls (claim C2)

The exclusive `fcntl.flock` (scheduler.py:56) is held across the whole
read-modify-write cycle, so any interleaving of two calls is equivalent to
one of the two serial orders; we model the order in which the first caller
acquires the lock first. -/

def two_concurrent_checks (c1 c2 : List String) (file : LedgerFile) :
    Finset String × Finset String × LedgerFile :=
  ((filter_and_update_sent_articles c1 file).1,
   (filter_and_update_sent_articles c2 (filter_and_update_sent_articles c1 file).2).1,
   (filter_and_update_sent_articles c2 (filter_and_update_sent_articles c1 file).2).2)

theorem storedIds_missing : LedgerFile.missing.storedIds = [] := rfl

theorem two_checks_fst (c1 c2 : List String) (file : LedgerFile) :
    (two_concurrent_checks c1 c2 file).1 = (filter_and_update_sent_articles c1 file).1 := rfl

theorem two_checks_snd_fst (c1 c2 : List String) (file : LedgerFile) :
    (two_concurrent_checks c1 c2 file).2.1
      = (filter_and_update_sent_articles c2 (filter_and_update_sent_articles c1 file).2).1 := rfl

/-- C2 (amended): two serialized `CheckAndRecord` calls on a readable
ledger return disjoint "new" sets, provided the first call's merge stays
within the 10,000-entry cap (otherwise an identifier inserted and at once
evicted by the first call can be reported new again by the second). -/
theorem c2_twoCalls_amended (c1 c2 l : List String)
    (hcap : (l.toFinset ∪ c1.toFinset).card ≤ 10000) :
    Disjoint (two_concurrent_checks c1 c2 (.content l)).1
      (two_concurrent_checks c1 c2 (.content l)).2.1 := by
  rw [Finset.disjoint_left]
  intro x hx1 hx2
  rw [two_checks_fst, filter_content_fst] at hx1
  rw [two_checks_snd_fst] at hx2
  obtain ⟨m, hm⟩ : ∃ m, (filter_and_update_sent_articles c1 (.content l)).2 = .content m := by
    by_cases h : c1.toFinset \ l.toFinset = ∅
    · exact ⟨l, by rw [filter_content_pos_eq _ _ h]⟩
    · exact ⟨_, by rw [filter_content_neg_eq _ _ h]⟩
  have hmfin : m.toFinset = l.toFinset ∪ c1.toFinset := by
    have hstored := filter_content_storedIds_of_cap c1 l hcap
    rw [hm, storedIds_content] at hstored
    exact hstored
  rw [hm, filter_content_fst] at hx2
  have hx1c : x ∈ c1.toFinset := (Finset.mem_sdiff.mp hx1).1
  have hx2n : x ∉ m.toFinset := (Finset.mem_sdiff.mp hx2).2
  rw [hmfin] at hx2n
  exact hx2n (Finset.mem_union_right _ hx1c)

/-- Witness for C2 at a concrete input: overlapping candidate sets
`{"a"}` and `{"a","b"}` against an empty readable ledger. -/
theorem c2_twoCalls_witness :
    Disjoint (two_concurrent_checks ["a"] ["a", "b"] (.content [])).1
      (two_concurrent_checks ["a"] ["a", "b"] (.content [])).2.1 :=
  c2_twoCalls_amended ["a"] ["a", "b"] [] (by decide)

/-- Seeding an empty readable ledger with the 10,001 identifiers of
`bigIds` evicts the smallest one, leaving exactly `restIds` stored. -/
theorem filter_bigIds_empty_snd :
    (filter_and_update_sent_articles bigIds (.content [])).2 = .content restIds := by
  have hne : ¬ (bigIds.toFinset \ ([] : List String).toFinset = ∅) := by
    rw [List.toFinset_nil, Finset.sdiff_empty]
    intro h0
    have hmem := List.mem_toFinset.mpr aStr_one_mem_bigIds
    rw [h0] at hmem
    exact absurd hmem (Finset.not_mem_empty _)
  rw [filter_content_neg_eq _ _ hne]
  have harg : ([] : List String).toFinset ∪ (bigIds.toFinset \ ([] : List String).toFinset)
      = bigIds.toFinset := by
    rw [List.toFinset_nil, Finset.sdiff_empty, Finset.empty_union]
  have hdrop : bigIds.drop (10001 - 10000) = restIds := by
    show bigIds.drop 1 = restIds
    rw [List.drop_one, bigIds, List.tail_cons]
  rw [harg, bigIds_sort, bigIds_length, hdrop]

/-- C2 fails as stated: seeding 10,001 fresh identifiers evicts the
smallest (`aStr 1`) immediately, so a racing second call still sees it as
new — both serialized calls report `aStr 1` in their "new" sets. -/
theorem c2_counterexample :
    aStr 1 ∈ (two_concurrent_checks bigIds [aStr 1] (.content [])).1 ∧
    aStr 1 ∈ (two_concurrent_checks bigIds [aStr 1] (.content [])).2.1 := by
  constructor
  · rw [two_checks_fst, filter_content_fst, List.toFinset_nil, Finset.sdiff_empty]
    exact List.mem_toFinset.mpr aStr_one_mem_bigIds
  · rw [two_checks_snd_fst, filter_bigIds_empty_snd, filter_content_fst]
    refine Finset.mem_sdiff.mpr ⟨?_, ?_⟩
    · rw [List.toFinset_cons]
      exact Finset.mem_insert_self _ _
    · intro hmem
      exact aStr_one_not_mem_restIds (List.mem_toFinset.mp hmem)

/-! ### The size cap and eviction order (claim C6) -/

/-- Keeping the last 10,000 entries of a strictly sorted list stays within
the cap, and every dropped element is strictly below every kept one. -/
theorem drop_cap_bound (S : List String) (hS : S.Pairwise (· < ·)) :
    (S.drop (S.length - 10000)).toFinset.card = min S.length 10000 ∧
    ∀ x ∈ S, x ∉ (S.drop (S.length - 10000)).toFinset →
      ∀ y ∈ (S.drop (S.length - 10000)).toFinset, x < y := by
  have hnd : S.Nodup := hS.imp ne_of_lt
  have hnd' : (S.drop (S.length - 10000)).Nodup :=
    List.Nodup.sublist (List.drop_sublist _ _) hnd
  constructor
  · rw [List.toFinset_card_of_nodup hnd', List.length_drop]
    omega
  · intro x hxS hxnot y hy
    rw [List.mem_toFinset] at hxnot hy
    have hsplit := List.take_append_drop (S.length - 10000) S
    have hx_take : x ∈ S.take (S.length - 10000) := by
      rw [← hsplit] at hxS
      rcases List.mem_append.mp hxS with h | h
      · exact h
      · exact absurd h hxnot
    have hpair : (S.take (S.length - 10000) ++ S.drop (S.length - 10000)).Pairwise (· < ·) := by
      rw [hsplit]; exact hS
    exact (List.pairwise_append.mp hpair).2.2 x hx_take y hy

/-- C6 (confirmed): after any `CheckAndRecord` call that inserts
identifiers, the stored ledger holds at most 10,000 identifiers; the
stored set is exactly the spec's truncation of the merged set (ascending
sort, last 10,000 kept); the kept count is exactly
`min |merged| 10000` — so eviction happens only beyond the cap; and every
dropped identifier of the merged set is strictly below (in the ascending
string order of the explicit convention) every kept one — so the dropped
ones are exactly the lowest-ordered entries beyond the cap. -/
theorem c6_cap_and_eviction (C : List String) (file : LedgerFile) (hC : C.Nodup)
    (hnew : (filter_and_update_sent_articles C file).1 ≠ ∅) :
    ((filter_and_update_sent_articles C file).2).storedIds.toFinset.card ≤ 10000 ∧
    ((filter_and_update_sent_articles C file).2).storedIds.toFinset
      = ledger_after_spec file.storedIds.toFinset C.toFinset ∧
    ((filter_and_update_sent_articles C file).2).storedIds.toFinset.card
      = min (file.storedIds.toFinset ∪ C.toFinset).card 10000 ∧
    ∀ x ∈ file.storedIds.toFinset ∪ C.toFinset,
      x ∉ ((filter_and_update_sent_articles C file).2).storedIds.toFinset →
      ∀ y ∈ ((filter_and_update_sent_articles C file).2).storedIds.toFinset, x < y := by
  cases file with
  | ioError => exact absurd rfl hnew
  | content l =>
    by_cases h : C.toFinset \ l.toFinset = ∅
    · rw [filter_content_pos_eq _ _ h] at hnew
      exact absurd rfl hnew
    · rw [filter_content_neg_eq _ _ h, snd_storedIds_content, storedIds_content]
      have hsorted : ((l.toFinset ∪ (C.toFinset \ l.toFinset)).sort (· ≤ ·)).Pairwise (· < ·) :=
        Finset.sort_sorted_lt _
      have hmain := drop_cap_bound _ hsorted
      have hunion : l.toFinset ∪ (C.toFinset \ l.toFinset) = l.toFinset ∪ C.toFinset :=
        Finset.union_sdiff_self_eq_union
      have hlen : ((l.toFinset ∪ (C.toFinset \ l.toFinset)).sort (· ≤ ·)).length
          = (l.toFinset ∪ C.toFinset).card := by
        rw [Finset.length_sort, hunion]
      refine ⟨?_, ?_, ?_, ?_⟩
      · rw [hmain.1]
        omega
      · unfold ledger_after_spec
        rw [← hunion]
      · rw [hmain.1, hlen]
      · intro x hxu hxnot y hy
        refine hmain.2 x ?_ hxnot y hy
        rw [Finset.mem_sort, Finset.union_sdiff_self_eq_union]
        exact hxu
  | missing =>
    rw [filter_missing_eq, snd_storedIds_content, storedIds_missing,
      insertionSort_eq_sort_toFinset C hC, List.toFinset_nil]
    have hsorted : (C.toFinset.sort (· ≤ ·)).Pairwise (· < ·) :=
      Finset.sort_sorted_lt _
    have hmain := drop_cap_bound _ hsorted
    have hlen : (C.toFinset.sort (· ≤ ·)).length = C.toFinset.card :=
      Finset.length_sort _
    refine ⟨?_, ?_, ?_, ?_⟩
    · rw [hmain.1]
      omega
    · unfold ledger_after_spec
      rw [Finset.empty_union]
    · rw [hmain.1, hlen, Finset.empty_union]
    · intro x hxu hxnot y hy
      refine hmain.2 x ?_ hxnot y hy
      rw [Finset.empty_union] at hxu
      rw [Finset.mem_sort]
      exact hxu

/-! ### The notification dispatcher (claim C8)

scheduler.py:98-114 `send_to_webhook`.  The delivery call's outcome is the
only input that matters: either an HTTP response with a numeric status
code, or a raised `requests.RequestException`. -/

inductive HttpResult where
  | response (status_code : Nat)
  | requestException
  deriving DecidableEq

/-- scheduler.py:98-114: `"Success"` for a status in `[200, 204]`,
`"Rate Limited"` for 429, `"Error: <code>"` otherwise, and
`"Failed to Connect"` when the request raises.  No retry: the function
performs exactly one classification of one attempt. -/
def send_to_webhook (result : HttpResult) : String :=
  match result with
  | .response status_code =>
      if status_code ∈ [200, 204] then "Success"
      else if status_code = 429 then "Rate Limited"
      else s!"Error: {status_code}"
  | .requestException => "Failed to Connect"

/-- C8 fails as stated: 201 is a 2xx response, yet it is classified as an
error carrying the code, not as success. -/
theorem c8_counterexample :
    send_to_webhook (.response 201) = "Error: 201" ∧
    send_to_webhook (.response 201) ≠ "Success" := by
  constructor
  · rfl
  · decide

/-- C8 (amended): `Deliver` classifies 200 and 204 — and only those, not
every 2xx — as success, 429 as rate-limited, every other status as an
error carrying the numeric code, and a raised request exception as a
connection failure; the call performs no retry (it maps one attempt's
outcome to one label). -/
theorem c8_deliver_amended :
    (∀ c : Nat, c = 200 ∨ c = 204 → send_to_webhook (.response c) = "Success") ∧
    send_to_webhook (.response 429) = "Rate Limited" ∧
    (∀ c : Nat, c ≠ 200 → c ≠ 204 → c ≠ 429 →
      send_to_webhook (.response c) = s!"Error: {c}") ∧
    send_to_webhook .requestException = "Failed to Connect" := by
  refine ⟨?_, rfl, ?_, rfl⟩
  · rintro c (rfl | rfl) <;> rfl
  · intro c h200 h204 h429
    show (if c ∈ [200, 204] then "Success"
      else if c = 429 then "Rate Limited" else s!"Error: {c}") = s!"Error: {c}"
    rw [if_neg, if_neg h429]
    simp only [List.mem_cons, List.mem_singleton, List.not_mem_nil]
    rintro (h | h | h)
    · exact h200 h
    · exact h204 h
    · exact h.elim

/-- Witness for C8 at concrete status codes 200, 429, 503 and a raised
request. -/
theorem c8_deliver_witness :
    send_to_webhook (.response 200) = "Success" ∧
    send_to_webhook (.response 429) = "Rate Limited" ∧
    send_to_webhook (.response 503) = s!"Error: {(503 : Nat)}" ∧
    send_to_webhook .requestException = "Failed to Connect" :=
  ⟨c8_deliver_amended.1 200 (Or.inl rfl), c8_deliver_amended.2.1,
   c8_deliver_amended.2.2.1 503 (by decide) (by decide) (by decide),
   c8_deliver_amended.2.2.2⟩

/-! ### The per-feed pipeline `check_single_feed` (scheduler.py:116-195)

Shallow embedding choices, each mirroring a line of the source:

* Time is epoch seconds (`Int`); `now - timedelta(hours=24)` is
  `now - 86400` (scheduler.py:133).
* A parsed entry carries the fields the pipeline reads for its decisions:
  `id`, `link` and `published_parsed` (title/summary only flow into the
  payload text, which no decision depends on).
* The network is external: the fetch outcome is passed in as a
  `FetchResult` (what `feedparser.parse` returned), and webhook responses
  come from an oracle `net : String → HttpResult` keyed by webhook URL.
* `check_single_feed` re-loads the feed-state file itself
  (scheduler.py:153); that load's result is the `feed_state` argument.
* Python truthiness of the strings involved (`entry.get('id') or
  entry.get('link')`, `if webhook_url:`) treats `None` and `""` as falsy.
-/

structure FeedEntry where
  id : Option String
  link : Option String
  published_parsed : Option Int
  deriving DecidableEq

structure FeedCheckState where
  status_code : Option Nat
  last_checked : Option Int
  last_post : Option (String × Int)
  deriving DecidableEq

def FeedCheckState.empty : FeedCheckState := ⟨none, none, none⟩

/-- The persisted per-feed check-state map (`feed_state.json`), keyed by
feed identifier. -/
abbrev FeedState := List (String × FeedCheckState)

structure Webhook where
  url : Option String
  deriving DecidableEq

structure FeedConfig where
  id : Option String
  url : String
  name : Option String
  webhooks : List Webhook
  update_interval : Option Nat
  active : Option Bool
  deriving DecidableEq

structure FetchResult where
  status : Option Nat
  entries : List FeedEntry
  deriving DecidableEq

structure CheckResult where
  status_code : Nat
  last_post_status : Option String
  ledger : LedgerFile
  posted : List FeedEntry
  deriving DecidableEq

/-- Python truthiness for an optional string: `None` and `""` are falsy. -/
def pyTruthy : Option String → Bool
  | some s => !(s == "")
  | none => false

/-- `entry.get('id') or entry.get('link')` (scheduler.py:149): the id when
truthy, otherwise the link value. -/
def entry_key (e : FeedEntry) : Option String :=
  if pyTruthy e.id then e.id else e.link

/-- The dict-comprehension guard (scheduler.py:150): an entry contributes
a key only when `(id or link)` is truthy. -/
def usable_key (e : FeedEntry) : Option String :=
  if pyTruthy (entry_key e) then entry_key e else none

/-- The sort key `x.get('published_parsed', (0,)*9)` (scheduler.py:146,
173); the default only matters for entries without a timestamp, which the
recency filter has already removed wherever this key is used. -/
def pubKey (e : FeedEntry) : Int := e.published_parsed.getD 0

/-- scheduler.py:135-141: keep entries having a publish timestamp no
earlier than 24 hours before the check (`published_dt >=
twenty_four_hours_ago`; there is no upper bound). -/
def recentFilter (now : Int) (es : List FeedEntry) : List FeedEntry :=
  es.filter (fun e =>
    match e.published_parsed with
    | some t => decide (now - 86400 ≤ t)
    | none => false)

/-- Python's stable `sort(key=..., reverse=True)` (scheduler.py:146):
newest first, ties kept in original order. -/
def descRel (a b : FeedEntry) : Prop := pubKey b ≤ pubKey a

/-- Python's stable ascending `sort(key=...)` (scheduler.py:173). -/
def ascRel (a b : FeedEntry) : Prop := pubKey a ≤ pubKey b

instance : DecidableRel descRel := fun _ _ => Int.decLe _ _

instance : DecidableRel ascRel := fun _ _ => Int.decLe _ _

instance : IsTotal FeedEntry descRel :=
  ⟨fun a b => le_total (pubKey b) (pubKey a)⟩

instance : IsTrans FeedEntry descRel :=
  ⟨fun _ _ _ hab hbc => le_trans hbc hab⟩

instance : IsTotal FeedEntry ascRel :=
  ⟨fun a b => le_total (pubKey a) (pubKey b)⟩

instance : IsTrans FeedEntry ascRel :=
  ⟨fun _ _ _ hab hbc => le_trans hab hbc⟩

def sortedRecent (now : Int) (es : List FeedEntry) : List FeedEntry :=
  (recentFilter now es).insertionSort descRel

/-- The keys of `article_id_map` (scheduler.py:148-151): usable keys of
the recent entries, without duplicates.  (A Python dict keeps the first
position of each key; key order is immaterial here because every use
either passes the keys to a set or re-sorts the selected entries by
publish time.) -/
def article_id_map_keys (es : List FeedEntry) : List String :=
  (es.filterMap usable_key).dedup

/-- The value of `article_id_map` at a key (scheduler.py:148-151): a dict
comprehension keeps the last entry written for the key. -/
def article_id_map_get (es : List FeedEntry) (k : String) : Option FeedEntry :=
  (es.filter (fun e => usable_key e == some k)).getLast?

/-- `feed_id not in feed_state` (scheduler.py:154); a feed without an id
is never a key of the state map. -/
def is_initial_check (feed_config : FeedConfig) (feed_state : FeedState) : Bool :=
  match feed_config.id with
  | some fid => (List.lookup fid feed_state).isNone
  | none => true

/-- The webhook URLs dispatched to (scheduler.py:189-192): each configured
webhook's `url`, skipping falsy ones. -/
def webhook_urls (feed_config : FeedConfig) : List String :=
  feed_config.webhooks.filterMap (fun w => if pyTruthy w.url then w.url else none)

/-- scheduler.py:171-173: the selected articles, oldest first. -/
def dispatch_posted (articles_to_post : List FeedEntry) : List FeedEntry :=
  articles_to_post.insertionSort ascRel

/-- scheduler.py:174-193: one send per posted entry per webhook URL, in
order; `last_post_status` is the label of the last attempt, `none` when no
send happened. -/
def last_dispatch_status (feed_config : FeedConfig) (net : String → HttpResult)
    (posted : List FeedEntry) : Option String :=
  (posted.flatMap (fun _ =>
    (webhook_urls feed_config).map (fun u => send_to_webhook (net u)))).getLast?

/-- scheduler.py:156-164: on a first-ever check only the newest recent
entry is selected. -/
def articles_to_post_initial (now : Int) (es : List FeedEntry) : List FeedEntry :=
  match sortedRecent now es with
  | e :: _ => [e]
  | [] => []

/-- scheduler.py:165-168: on a subsequent check, the entries whose
identifiers the ledger reported as new. -/
def articles_to_post_subseq (now : Int) (es : List FeedEntry)
    (newIds : Finset String) : List FeedEntry :=
  ((article_id_map_keys (sortedRecent now es)).filter (fun k => k ∈ newIds)).filterMap
    (article_id_map_get (sortedRecent now es))

/-- scheduler.py:116-195 `check_single_feed`: status classification
(`feed_data.get('status', 500)`), recency filter, initial-check seeding
versus subsequent-check dedup, dispatch, and the returned pair. -/
def check_single_feed (feed_config : FeedConfig) (fetched : FetchResult) (now : Int)
    (feed_state : FeedState) (ledger : LedgerFile) (net : String → HttpResult) :
    CheckResult :=
  if fetched.entries.isEmpty then
    ⟨fetched.status.getD 500, none, ledger, []⟩
  else if (recentFilter now fetched.entries).isEmpty then
    ⟨fetched.status.getD 500, none, ledger, []⟩
  else if is_initial_check feed_config feed_state then
    ⟨fetched.status.getD 500,
     last_dispatch_status feed_config net
       (dispatch_posted (articles_to_post_initial now fetched.entries)),
     (filter_and_update_sent_articles
       (article_id_map_keys (sortedRecent now fetched.entries)) ledger).2,
     dispatch_posted (articles_to_post_initial now fetched.entries)⟩
  else
    ⟨fetched.status.getD 500,
     last_dispatch_status feed_config net
       (dispatch_posted (articles_to_post_subseq now fetched.entries
         (filter_and_update_sent_articles
           (article_id_map_keys (sortedRecent now fetched.entries)) ledger).1)),
     (filter_and_update_sent_articles
       (article_id_map_keys (sortedRecent now fetched.entries)) ledger).2,
     dispatch_posted (articles_to_post_subseq now fetched.entries
       (filter_and_update_sent_articles
         (article_id_map_keys (sortedRecent now fetched.entries)) ledger).1)⟩

/-! ### Branch lemmas for `check_single_feed` -/

theorem check_no_entries (fc : FeedConfig) (fetched : FetchResult) (now : Int)
    (fs : FeedState) (ledger : LedgerFile) (net : String → HttpResult)
    (h : fetched.entries.isEmpty = true) :
    check_single_feed fc fetched now fs ledger net
      = ⟨fetched.status.getD 500, none, ledger, []⟩ := by
  unfold check_single_feed
  rw [if_pos h]

theorem check_no_recent (fc : FeedConfig) (fetched : FetchResult) (now : Int)
    (fs : FeedState) (ledger : LedgerFile) (net : String → HttpResult)
    (h1 : fetched.entries.isEmpty = false)
    (h2 : (recentFilter now fetched.entries).isEmpty = true) :
    check_single_feed fc fetched now fs ledger net
      = ⟨fetched.status.getD 500, none, ledger, []⟩ := by
  unfold check_single_feed
  rw [if_neg (by rw [h1]; exact Bool.false_ne_true), if_pos h2]

theorem check_initial (fc : FeedConfig) (fetched : FetchResult) (now : Int)
    (fs : FeedState) (ledger : LedgerFile) (net : String → HttpResult)
    (h1 : fetched.entries.isEmpty = false)
    (h2 : (recentFilter now fetched.entries).isEmpty = false)
    (h3 : is_initial_check fc fs = true) :
    check_single_feed fc fetched now fs ledger net
      = ⟨fetched.status.getD 500,
         last_dispatch_status fc net
           (dispatch_posted (articles_to_post_initial now fetched.entries)),
         (filter_and_update_sent_articles
           (article_id_map_keys (sortedRecent now fetched.entries)) ledger).2,
         dispatch_posted (articles_to_post_initial now fetched.entries)⟩ := by
  unfold check_single_feed
  rw [if_neg (by rw [h1]; exact Bool.false_ne_true),
    if_neg (by rw [h2]; exact Bool.false_ne_true), if_pos h3]

theorem check_subseq (fc : FeedConfig) (fetched : FetchResult) (now : Int)
    (fs : FeedState) (ledger : LedgerFile) (net : String → HttpResult)
    (h1 : fetched.entries.isEmpty = false)
    (h2 : (recentFilter now fetched.entries).isEmpty = false)
    (h3 : is_initial_check fc fs = false) :
    check_single_feed fc fetched now fs ledger net
      = ⟨fetched.status.getD 500,
         last_dispatch_status fc net
           (dispatch_posted (articles_to_post_subseq now fetched.entries
             (filter_and_update_sent_articles
               (article_id_map_keys (sortedRecent now fetched.entries)) ledger).1)),
         (filter_and_update_sent_articles
           (article_id_map_keys (sortedRecent now fetched.entries)) ledger).2,
         dispatch_posted (articles_to_post_subseq now fetched.entries
           (filter_and_update_sent_articles
             (article_id_map_keys (sortedRecent now fetched.entries)) ledger).1)⟩ := by
  unfold check_single_feed
  rw [if_neg (by rw [h1]; exact Bool.false_ne_true),
    if_neg (by rw [h2]; exact Bool.false_ne_true),
    if_neg (by rw [h3]; exact Bool.false_ne_true)]

/-- The transport status returned is always `feed_data.get('status', 500)`. -/
theorem check_status_code (fc : FeedConfig) (fetched : FetchResult) (now : Int)
    (fs : FeedState) (ledger : LedgerFile) (net : String → HttpResult) :
    (check_single_feed fc fetched now fs ledger net).status_code
      = fetched.status.getD 500 := by
  unfold check_single_feed
  split_ifs <;> rfl

/-! ### Helper lemmas about the recency window and the posted entries -/

theorem mem_recentFilter_window (now : Int) (es : List FeedEntry) (e : FeedEntry)
    (h : e ∈ recentFilter now es) :
    ∃ t, e.published_parsed = some t ∧ now - 86400 ≤ t := by
  unfold recentFilter at h
  obtain ⟨-, hpred⟩ := List.mem_filter.mp h
  cases hp : e.published_parsed with
  | none => rw [hp] at hpred; exact absurd hpred (by simp)
  | some t =>
    rw [hp] at hpred
    exact ⟨t, rfl, by simpa using hpred⟩

/-- Every entry ever selected for posting passed the recency filter. -/
theorem mem_posted_mem_recent (fc : FeedConfig) (fetched : FetchResult) (now : Int)
    (fs : FeedState) (ledger : LedgerFile) (net : String → HttpResult) (e : FeedEntry)
    (h : e ∈ (check_single_feed fc fetched now fs ledger net).posted) :
    e ∈ recentFilter now fetched.entries := by
  unfold check_single_feed at h
  split_ifs at h with h1 h2 h3
  · exact absurd h (List.not_mem_nil e)
  · exact absurd h (List.not_mem_nil e)
  · have h' : e ∈ articles_to_post_initial now fetched.entries := by
      unfold dispatch_posted at h
      exact (List.mem_insertionSort _).mp h
    unfold articles_to_post_initial at h'
    cases hs : sortedRecent now fetched.entries with
    | nil => rw [hs] at h'; exact absurd h' (List.not_mem_nil e)
    | cons x xs =>
      rw [hs] at h'
      have hex : e = x := by simpa using h'
      have hxmem : e ∈ sortedRecent now fetched.entries := by
        rw [hs, hex]; exact List.mem_cons_self x xs
      unfold sortedRecent at hxmem
      exact (List.mem_insertionSort _).mp hxmem
  · have h' : e ∈ articles_to_post_subseq now fetched.entries
        (filter_and_update_sent_articles
          (article_id_map_keys (sortedRecent now fetched.entries)) ledger).1 := by
      unfold dispatch_posted at h
      exact (List.mem_insertionSort _).mp h
    unfold articles_to_post_subseq at h'
    obtain ⟨k, hk, hget⟩ := List.mem_filterMap.mp h'
    unfold article_id_map_get at hget
    have hmem := List.mem_of_getLast?_eq_some hget
    have hsr := (List.mem_filter.mp hmem).1
    unfold sortedRecent at hsr
    exact (List.mem_insertionSort _).mp hsr

theorem sortedRecent_pairwise (now : Int) (es : List FeedEntry) :
    (sortedRecent now es).Pairwise descRel :=
  List.sorted_insertionSort descRel (recentFilter now es)

/-! ### Concrete scenario used by several witnesses/counterexamples -/

/-- An entry with a usable id whose publish timestamp lies 100 seconds in
the future of check time 1000000. -/
def sampleEntry : FeedEntry := ⟨some "e1", some "http://x/1", some 1000100⟩

def sampleFeed : FeedConfig := ⟨some "f1", "http://feed", none, [], none, none⟩

def sampleFetch : FetchResult := ⟨some 200, [sampleEntry]⟩

/-- A check-state in which feed `"f1"` has already been checked. -/
def sampleStateChecked : FeedState := [("f1", FeedCheckState.empty)]

def sampleNet : String → HttpResult := fun _ => .requestException

/-! ### Claim C10: the 500 sentinel -/

/-- C10 (confirmed): when the parsed result carries no HTTP status the
pipeline reports the literal 500, and a genuine HTTP 500 from the server
yields the same recorded value — the two are indistinguishable in the
returned transport status. -/
theorem c10_status_sentinel (fc fc' : FeedConfig) (es es' : List FeedEntry)
    (now now' : Int) (fs fs' : FeedState) (ledger ledger' : LedgerFile)
    (net net' : String → HttpResult) :
    (check_single_feed fc ⟨none, es⟩ now fs ledger net).status_code = 500 ∧
    (check_single_feed fc' ⟨some 500, es'⟩ now' fs' ledger' net').status_code = 500 := by
  constructor
  · rw [check_status_code]; rfl
  · rw [check_status_code]; rfl

/-! ### Claim C9: the recency window -/

/-- C9 fails as stated: an entry published 100 seconds *after* the check
time — outside a window that ends at the check time — is still selected
and posted, because the filter has no upper bound. -/
theorem c9_counterexample :
    sampleEntry ∈ (check_single_feed sampleFeed sampleFetch 1000000 sampleStateChecked
      (.content []) sampleNet).posted ∧
    sampleEntry.published_parsed = some 1000100 ∧ (1000000 : Int) < 1000100 := by
  refine ⟨by decide, rfl, by norm_num⟩

/-- C9 (amended): every posted entry carries a publish timestamp no
earlier than 24 hours before the check time (there is no upper bound on
the timestamp); entries lacking a timestamp, or older than 24 hours, are
never dispatched even if unseen by the ledger. -/
theorem c9_window_amended (fc : FeedConfig) (fetched : FetchResult) (now : Int)
    (fs : FeedState) (ledger : LedgerFile) (net : String → HttpResult) :
    ∀ e ∈ (check_single_feed fc fetched now fs ledger net).posted,
      ∃ t, e.published_parsed = some t ∧ now - 86400 ≤ t :=
  fun e he => mem_recentFilter_window now fetched.entries e
    (mem_posted_mem_recent fc fetched now fs ledger net e he)

/-- Witness for C9 at the concrete scenario. -/
theorem c9_window_witness :
    ∃ t, sampleEntry.published_parsed = some t ∧ (1000000 : Int) - 86400 ≤ t :=
  c9_window_amended sampleFeed sampleFetch 1000000 sampleStateChecked (.content [])
    sampleNet sampleEntry (by decide)

/-! ### Claim C3: the first-ever check -/

/-- C3 (amended): on a first-ever check (no Check-State entry) with at
least one recent entry, exactly one entry is selected for posting — the
most recently published one, regardless of how many recent entries
exist — and the ledger update is made with *all* recent candidate
identifiers; every candidate identifier is actually recorded provided the
merge stays within the 10,000-entry cap (beyond the cap the lowest-sorted
candidates are evicted by the seeding call itself — see the
counterexample). -/
theorem c3_initial_amended (fc : FeedConfig) (fetched : FetchResult)
    (now : Int) (fs : FeedState) (l : List String) (net : String → HttpResult)
    (hinit : is_initial_check fc fs = true)
    (hrec : (recentFilter now fetched.entries).isEmpty = false) :
    (∃ e, (check_single_feed fc fetched now fs (.content l) net).posted = [e] ∧
      e ∈ recentFilter now fetched.entries ∧
      ∀ e' ∈ recentFilter now fetched.entries, pubKey e' ≤ pubKey e) ∧
    (check_single_feed fc fetched now fs (.content l) net).ledger
      = (filter_and_update_sent_articles
          (article_id_map_keys (sortedRecent now fetched.entries)) (.content l)).2 ∧
    ((l.toFinset
        ∪ (article_id_map_keys (sortedRecent now fetched.entries)).toFinset).card ≤ 10000 →
      ∀ k ∈ article_id_map_keys (sortedRecent now fetched.entries),
        k ∈ ((check_single_feed fc fetched now fs (.content l) net).ledger).storedIds.toFinset) := by
  have hent : fetched.entries.isEmpty = false := by
    cases he : fetched.entries.isEmpty
    · rfl
    · have hnil : fetched.entries = [] := List.isEmpty_iff.mp he
      rw [hnil] at hrec
      simp [recentFilter] at hrec
  have hck := check_initial fc fetched now fs (.content l) net hent hrec hinit
  have hsr_ne : sortedRecent now fetched.entries ≠ [] := by
    intro h0
    have hperm := List.perm_insertionSort descRel (recentFilter now fetched.entries)
    unfold sortedRecent at h0
    rw [h0] at hperm
    have hnil : recentFilter now fetched.entries = [] := hperm.symm.eq_nil
    rw [hnil] at hrec
    simp at hrec
  obtain ⟨x, xs, hs⟩ := List.exists_cons_of_ne_nil hsr_ne
  refine ⟨⟨x, ?_, ?_, ?_⟩, ?_, ?_⟩
  · rw [hck]
    show dispatch_posted (articles_to_post_initial now fetched.entries) = [x]
    unfold articles_to_post_initial
    rw [hs]
    rfl
  · have hx : x ∈ sortedRecent now fetched.entries := by
      rw [hs]; exact List.mem_cons_self x xs
    unfold sortedRecent at hx
    exact (List.mem_insertionSort _).mp hx
  · intro e' he'
    have he'' : e' ∈ sortedRecent now fetched.entries := by
      unfold sortedRecent
      exact (List.mem_insertionSort _).mpr he'
    rw [hs] at he''
    rcases List.mem_cons.mp he'' with rfl | hmem
    · exact le_refl _
    · have hp := sortedRecent_pairwise now fetched.entries
      rw [hs] at hp
      exact (List.pairwise_cons.mp hp).1 e' hmem
  · rw [hck]
  · intro hcap k hk
    rw [hck]
    show k ∈ ((filter_and_update_sent_articles
      (article_id_map_keys (sortedRecent now fetched.entries)) (.content l)).2).storedIds.toFinset
    rw [filter_content_storedIds_of_cap _ _ hcap]
    exact Finset.mem_union_right _ (List.mem_toFinset.mpr hk)

/-- Entries for a first-check scenario: two recent entries, published at
times 100 and 200, checked at time 86500 (both within the window). -/
def seedEntryOld : FeedEntry := ⟨some "o1", some "http://x/o1", some 100⟩

def seedEntryNew : FeedEntry := ⟨some "o2", some "http://x/o2", some 200⟩

def seedFetch : FetchResult := ⟨some 200, [seedEntryOld, seedEntryNew]⟩

/-- Witness for C3 at the concrete first-check scenario, with the cap
premise discharged. -/
theorem c3_initial_witness :
    (∃ e, (check_single_feed sampleFeed seedFetch 86500 ([] : FeedState)
        (.content []) sampleNet).posted = [e] ∧
      e ∈ recentFilter 86500 seedFetch.entries ∧
      ∀ e' ∈ recentFilter 86500 seedFetch.entries, pubKey e' ≤ pubKey e) ∧
    (check_single_feed sampleFeed seedFetch 86500 ([] : FeedState)
        (.content []) sampleNet).ledger
      = (filter_and_update_sent_articles
          (article_id_map_keys (sortedRecent 86500 seedFetch.entries)) (.content [])).2 ∧
    ∀ k ∈ article_id_map_keys (sortedRecent 86500 seedFetch.entries),
      k ∈ ((check_single_feed sampleFeed seedFetch 86500 ([] : FeedState)
        (.content []) sampleNet).ledger).storedIds.toFinset :=
  ⟨(c3_initial_amended sampleFeed seedFetch 86500 [] [] sampleNet
      (by decide) (by decide)).1,
   (c3_initial_amended sampleFeed seedFetch 86500 [] [] sampleNet
      (by decide) (by decide)).2.1,
   (c3_initial_amended sampleFeed seedFetch 86500 [] [] sampleNet
      (by decide) (by decide)).2.2 (by decide)⟩

/-! ### The C3 counterexample: a first check with 10,001 candidates

`bigEntries` turns each of the 10,001 identifiers of `bigIds` into a
recent entry (all published at the check time 0); the seeding call then
evicts the lowest-sorted identifier `aStr 1`, so the Ledger is *not*
seeded with all recent candidate identifiers. -/

theorem aStr_succ_ne_empty (k : Nat) : aStr (k + 1) ≠ "" := by
  intro h
  have h2 : ('a' :: List.replicate k 'a') = ([] : List Char) := by
    have h3 := congrArg String.toList h
    rw [show (aStr (k + 1)).toList = List.replicate (k + 1) 'a' from rfl,
      List.replicate_succ] at h3
    exact h3
  exact List.noConfusion h2

theorem mem_bigIds_ne_empty {s : String} (hs : s ∈ bigIds) : s ≠ "" := by
  rcases List.mem_cons.mp hs with rfl | hmem
  · exact aStr_succ_ne_empty 0
  · simp only [restIds, List.mem_map, List.mem_range] at hmem
    obtain ⟨n, -, rfl⟩ := hmem
    exact aStr_succ_ne_empty (n + 1)

def bigEntry (s : String) : FeedEntry := ⟨some s, none, some 0⟩

def bigEntries : List FeedEntry := bigIds.map bigEntry

def bigFetch : FetchResult := ⟨some 200, bigEntries⟩

theorem recentFilter_bigEntries : recentFilter 0 bigEntries = bigEntries := by
  unfold recentFilter
  apply List.filter_eq_self.mpr
  intro a ha
  obtain ⟨s, -, rfl⟩ := List.mem_map.mp ha
  rfl

theorem sortedRecent_bigEntries : sortedRecent 0 bigEntries = bigEntries := by
  unfold sortedRecent
  rw [recentFilter_bigEntries]
  have hp : (bigIds.map bigEntry).Pairwise descRel :=
    (List.pairwise_map).mpr (bigIds_pairwise_lt.imp (fun _ => le_refl 0))
  exact List.Sorted.insertionSort_eq hp

theorem keys_bigEntries : article_id_map_keys bigEntries = bigIds := by
  have hcongr : ∀ s ∈ bigIds, (usable_key ∘ bigEntry) s = some s := by
    intro s hs
    have hne : s ≠ "" := mem_bigIds_ne_empty hs
    simp [usable_key, entry_key, pyTruthy, bigEntry, hne]
  unfold article_id_map_keys bigEntries
  rw [List.filterMap_map, List.filterMap_congr hcongr, List.filterMap_some,
    List.dedup_eq_self.mpr bigIds_nodup]

/-- C3 fails as stated: a first-ever check whose fetch yields 10,001
recent entries with usable identifiers seeds the Ledger with only 10,000
of them — the lowest-sorted identifier `aStr 1` is a recent candidate yet
is absent from the ledger afterwards (it can be re-delivered later). -/
theorem checkResult_ledger (a : Nat) (b : Option String) (c : LedgerFile)
    (d : List FeedEntry) : (CheckResult.mk a b c d).ledger = c := rfl

theorem c3_counterexample :
    is_initial_check sampleFeed ([] : FeedState) = true ∧
    aStr 1 ∈ article_id_map_keys (sortedRecent 0 bigFetch.entries) ∧
    aStr 1 ∉ ((check_single_feed sampleFeed bigFetch 0 ([] : FeedState)
      (.content []) sampleNet).ledger).storedIds.toFinset := by
  have hkeys : article_id_map_keys (sortedRecent 0 bigFetch.entries) = bigIds := by
    rw [show bigFetch.entries = bigEntries from rfl, sortedRecent_bigEntries,
      keys_bigEntries]
  refine ⟨rfl, ?_, ?_⟩
  · rw [hkeys]
    exact aStr_one_mem_bigIds
  · have h1 : bigFetch.entries.isEmpty = false := rfl
    have h2 : (recentFilter 0 bigFetch.entries).isEmpty = false := by
      rw [show bigFetch.entries = bigEntries from rfl, recentFilter_bigEntries]
      rfl
    have h3 : is_initial_check sampleFeed ([] : FeedState) = true := rfl
    have hck := check_initial sampleFeed bigFetch 0 [] (.content []) sampleNet h1 h2 h3
    rw [hck, checkResult_ledger, hkeys, filter_bigIds_empty_snd, storedIds_content]
    intro hmem
    exact aStr_one_not_mem_restIds (List.mem_toFinset.mp hmem)

/-! ### Claim C7: fail-closed on ledger errors -/

/-- C7 (amended): when touching the ledger file raises, `CheckAndRecord`
returns the empty set of new candidates (fail closed), and on any
*subsequent* check no entry is dispatched that cycle.  (On a *first-ever*
check, the single newest entry is still dispatched, because initial-check
dispatch does not consult the returned set — see the counterexample.) -/
theorem c7_failClosed_amended :
    (∀ C : List String, filter_and_update_sent_articles C .ioError = (∅, .ioError)) ∧
    (∀ (fc : FeedConfig) (fetched : FetchResult) (now : Int) (fs : FeedState)
      (net : String → HttpResult), is_initial_check fc fs = false →
      (check_single_feed fc fetched now fs .ioError net).posted = []) := by
  refine ⟨fun C => filter_ioError_eq C, ?_⟩
  intro fc fetched now fs net hsub
  cases h1 : fetched.entries.isEmpty with
  | true => rw [check_no_entries _ _ _ _ _ _ h1]
  | false =>
    cases h2 : (recentFilter now fetched.entries).isEmpty with
    | true => rw [check_no_recent _ _ _ _ _ _ h1 h2]
    | false =>
      rw [check_subseq _ _ _ _ _ _ h1 h2 hsub]
      show dispatch_posted (articles_to_post_subseq now fetched.entries
        (filter_and_update_sent_articles
          (article_id_map_keys (sortedRecent now fetched.entries)) .ioError).1) = []
      rw [show (filter_and_update_sent_articles
          (article_id_map_keys (sortedRecent now fetched.entries)) .ioError).1
          = (∅ : Finset String) from by rw [filter_ioError_eq]]
      unfold articles_to_post_subseq
      rw [show (article_id_map_keys (sortedRecent now fetched.entries)).filter
          (fun k => decide (k ∈ (∅ : Finset String))) = []
        from List.filter_eq_nil_iff.mpr (fun a _ => by simp)]
      rfl

/-- C7 fails as stated on a first-ever check: with the ledger raising, the
newest entry is dispatched anyway (and nothing is seeded), contradicting
"no entry is dispatched in that cycle". -/
theorem c7_counterexample :
    (check_single_feed sampleFeed sampleFetch 1000000 ([] : FeedState)
      .ioError sampleNet).posted = [sampleEntry] ∧
    (check_single_feed sampleFeed sampleFetch 1000000 ([] : FeedState)
      .ioError sampleNet).ledger = .ioError := by
  decide

/-- Witness for C7: a concrete fail-closed return and a concrete
subsequent check dispatching nothing. -/
theorem c7_failClosed_witness :
    filter_and_update_sent_articles ["x"] .ioError = ((∅ : Finset String), .ioError) ∧
    (check_single_feed sampleFeed sampleFetch 1000000 sampleStateChecked
      .ioError sampleNet).posted = [] :=
  ⟨c7_failClosed_amended.1 ["x"],
   c7_failClosed_amended.2 sampleFeed sampleFetch 1000000 sampleStateChecked sampleNet
     (by decide)⟩

/-- Witness for C6 at a concrete input: inserting `"b"` into ledger
`["a"]`. -/
theorem c6_cap_witness :
    ((filter_and_update_sent_articles ["b"] (.content ["a"])).2).storedIds.toFinset.card ≤ 10000 ∧
    ((filter_and_update_sent_articles ["b"] (.content ["a"])).2).storedIds.toFinset
      = ledger_after_spec (LedgerFile.content ["a"]).storedIds.toFinset
          (["b"] : List String).toFinset ∧
    ((filter_and_update_sent_articles ["b"] (.content ["a"])).2).storedIds.toFinset.card
      = min ((LedgerFile.content ["a"]).storedIds.toFinset
          ∪ (["b"] : List String).toFinset).card 10000 ∧
    ∀ x ∈ (LedgerFile.content ["a"]).storedIds.toFinset ∪ (["b"] : List String).toFinset,
      x ∉ ((filter_and_update_sent_articles ["b"] (.content ["a"])).2).storedIds.toFinset →
      ∀ y ∈ ((filter_and_update_sent_articles ["b"] (.content ["a"])).2).storedIds.toFinset,
        x < y :=
  c6_cap_and_eviction ["b"] (.content ["a"]) (by decide) (by decide)

/-! ### The scheduler loop (scheduler.py:199-248) and the on-demand
force check (main_web.py:1139-1186)

One pass of the loop body for a single feed.  The loop reads config and
state, and for each feed with a truthy id decides due-ness from
`now - last_checked >= update_interval` (default 300); when due it runs
`check_single_feed` and persists status code, checked-at time and (when
some) the last post outcome.  The loop body never reads the feed's
`active` flag.  `check_single_feed` re-loads the state file itself
(scheduler.py:153), which at that point still holds the state as last
saved — the in-memory `feed_state[feed_id] = {}` of scheduler.py:227-228
is only persisted by the save after the check. -/

/-- Python dict update: replace in place, or append a new key. -/
def upsertState : FeedState → String → FeedCheckState → FeedState
  | [], k, v => [(k, v)]
  | (k', v') :: rest, k, v =>
      if k' = k then (k, v) :: rest else (k', v') :: upsertState rest k v

/-- scheduler.py:215-222: due when never checked, or when
`now - last_checked >= update_interval`. -/
def scheduler_should_check (fid : String) (update_interval : Nat)
    (feed_state : FeedState) (now : Int) : Bool :=
  match (List.lookup fid feed_state).bind (fun st => st.last_checked) with
  | some t => decide ((update_interval : Int) <= now - t)
  | none => true

/-- scheduler.py:211-246: the loop body for one feed.  A feed without a
truthy id is skipped (`if not feed_id: continue`); otherwise, when due,
the pipeline runs and the state entry is written. -/
def scheduler_process_feed (now : Int) (fetch : String -> FetchResult)
    (net : String -> HttpResult) (st : FeedState × LedgerFile)
    (feed_config : FeedConfig) : FeedState × LedgerFile :=
  match feed_config.id with
  | none => st
  | some fid =>
    if fid = "" then st
    else if scheduler_should_check fid (feed_config.update_interval.getD 300) st.1 now then
      let r := check_single_feed feed_config (fetch feed_config.url) now st.1 st.2 net
      let state1 := if (List.lookup fid st.1).isSome then st.1
        else upsertState st.1 fid FeedCheckState.empty
      let prev := (List.lookup fid state1).getD FeedCheckState.empty
      let entry : FeedCheckState :=
        { status_code := some r.status_code,
          last_checked := some now,
          last_post := match r.last_post_status with
            | some s => some (s, now)
            | none => prev.last_post }
      (upsertState state1 fid entry, r.ledger)
    else st

/-- One full scan over the configured feeds (scheduler.py:211). -/
def scheduler_scan (now : Int) (fetch : String -> FetchResult)
    (net : String -> HttpResult) (feeds : List FeedConfig)
    (feed_state : FeedState) (ledger : LedgerFile) : FeedState × LedgerFile :=
  feeds.foldl (scheduler_process_feed now fetch net) (feed_state, ledger)

/-- A feed whose active flag is false, due (never checked). -/
def pausedFeed : FeedConfig :=
  ⟨some "f1", "http://feed", none, [], none, some false⟩

/-- C5 (code bug): the loop body never reads the `active` flag, so a due
feed with `active = false` is checked anyway and its check-state entry is
written; the result is moreover identical for every value of the flag. -/
theorem c5_inactive_feed_checked :
    scheduler_process_feed 1000 (fun _ => ⟨some 200, []⟩) sampleNet
        (([] : FeedState), .content []) pausedFeed
      = ([("f1", ⟨some 200, some 1000, none⟩)], .content []) ∧
    pausedFeed.active = some false ∧
    ∀ b : Option Bool,
      scheduler_process_feed 1000 (fun _ => ⟨some 200, []⟩) sampleNet
        (([] : FeedState), .content []) { pausedFeed with active := b }
      = scheduler_process_feed 1000 (fun _ => ⟨some 200, []⟩) sampleNet
        (([] : FeedState), .content []) pausedFeed :=
  ⟨by decide, rfl, fun b => rfl⟩

/-! ### The on-demand force check (claim C4)

main_web.py:1139-1186 `force_check_feed` looks the feed up in the config,
dynamically imports `check_single_feed` from scheduler.py, and calls
`check_single_feed(feed_config, current_state)` — two positional
arguments (main_web.py:1162).  The imported function is declared with a
single parameter (`def check_single_feed(feed_config):`, scheduler.py:116),
so under Python call semantics the call raises `TypeError` before the
pipeline body runs; the surrounding `except Exception` flashes an error
and the state write at main_web.py:1179 is never reached.  The embedding
makes the arity check explicit and keeps the intended pipeline-and-save in
the (unreachable) matching-arity branch. -/

/-- Parameter count of `def check_single_feed(feed_config):`
(scheduler.py:116). -/
def check_single_feed_param_count : Nat := 1

/-- Positional-argument count of the call
`check_single_feed(feed_config, current_state)` (main_web.py:1162). -/
def force_check_arg_count : Nat := 2

inductive ForceCheckOutcome where
  | flashSuccess (status_code : Nat)
  | flashError
  deriving DecidableEq

/-- main_web.py:1139-1186 `force_check_feed`. -/
def force_check_feed (now : Int) (fetch : String -> FetchResult)
    (net : String -> HttpResult) (config_feeds : List FeedConfig) (feed_id : String)
    (current_state : FeedState) (ledger : LedgerFile) :
    ForceCheckOutcome × FeedState × LedgerFile :=
  match config_feeds.find? (fun f => f.id == some feed_id) with
  | none => (.flashError, current_state, ledger)
  | some feed_config =>
    if check_single_feed_param_count = force_check_arg_count then
      let r := check_single_feed feed_config (fetch feed_config.url) now
        current_state ledger net
      let state1 := if (List.lookup feed_id current_state).isSome then current_state
        else upsertState current_state feed_id FeedCheckState.empty
      let prev := (List.lookup feed_id state1).getD FeedCheckState.empty
      let entry : FeedCheckState :=
        { status_code := some r.status_code,
          last_checked := some now,
          last_post := match r.last_post_status with
            | some s => some (s, now)
            | none => prev.last_post }
      (.flashSuccess r.status_code, upsertState state1 feed_id entry, r.ledger)
    else
      (.flashError, current_state, ledger)

/-- C4 (code bug): for every input — feed found or not — the on-demand
force check ends in the error flash with the check-state and ledger
untouched: the arity mismatch between the call site (two arguments) and
`check_single_feed` (one parameter) means the pipeline never runs and no
result is written back. -/
theorem c4_force_check_never_runs (now : Int) (fetch : String -> FetchResult)
    (net : String -> HttpResult) (config_feeds : List FeedConfig) (feed_id : String)
    (current_state : FeedState) (ledger : LedgerFile) :
    force_check_feed now fetch net config_feeds feed_id current_state ledger
      = (.flashError, current_state, ledger) := by
  unfold force_check_feed
  split
  · rfl
  · rw [if_neg (by decide : ¬(check_single_feed_param_count = force_check_arg_count))]

end HotPRSS
